import Mathlib

/-!
Verification of the automation HTTP server (`src/server.rs`, `src/lib.rs`)
of the `tauri-plugin-automation` repository.

The development shallowly embeds the Rust code:

* `base64_decode` and its helper loop are translated from `server.rs`
  lines 238-267, with `u32` arithmetic made explicit (`% 2 ^ 32`) and the
  byte cast `as u8` rendered as `% 256`.  The Rust comparison
  `x == c as u8` truncates the character's code point to its low 8 bits,
  which the embedding keeps as `c.toNat % 256`.
* The screenshot buffer (`SCREENSHOT_DATA`, `set_screenshot_data`,
  `take_screenshot_data`) becomes explicit state passing over
  `Option String`; the mutex always succeeds in this sequential model.
* `handle_execute`, `handle_screenshot` and the routing match of
  `start_server` become pure functions over an environment recording the
  facts the handlers consult (window present, `eval` outcome, buffer
  contents).  Body reading and JSON parsing are external collaborators
  (`std::io`, `serde_json`); their outcome is an input (`ExecInput`),
  and JSON documents are modelled structurally (`JsonVal`).  The
  JavaScript text built by `format!` is abstracted to the data that
  varies in it (the command name and the args value), since no theorem
  inspects the script text itself.
-/

/-! ## Base64 decoder (server.rs lines 238-267) -/

/-- Rust `char::is_whitespace`: the Unicode `White_Space` property. -/
def rustIsWhitespace (c : Char) : Bool :=
  let n := c.toNat
  (0x9 ≤ n && n ≤ 0xD) || n == 0x20 || n == 0x85 || n == 0xA0 ||
  n == 0x1680 || (0x2000 ≤ n && n ≤ 0x200A) || n == 0x2028 || n == 0x2029 ||
  n == 0x202F || n == 0x205F || n == 0x3000

/-- Rust `str::trim`: remove leading and trailing whitespace. -/
def rustTrim (l : List Char) : List Char :=
  ((l.dropWhile rustIsWhitespace).reverse.dropWhile rustIsWhitespace).reverse

/-- The 64 base64 alphabet symbols, in order. -/
def B64CHARS : List Char :=
  "ABCDEFGHIJKLMNOPQRSTUVWXYZabcdefghijklmnopqrstuvwxyz0123456789+/".toList

/-- `const ALPHABET: &[u8]` from the source: the alphabet as bytes. -/
def ALPHABET : List Nat := B64CHARS.map Char.toNat

/-- `ALPHABET.iter().position(|&x| x == c as u8)`: the Rust cast `c as u8`
truncates the scalar value, hence `c.toNat % 256`. -/
def b64Value (c : Char) : Option Nat :=
  ALPHABET.findIdx? (fun x => x == c.toNat % 256)

/-- The `for c in chars` loop of `base64_decode`: state is the `u32` bit
buffer, the collected-bit count and the output bytes.  `buffer` wraps at
`2 ^ 32` as in Rust; the pushed byte is reduced `% 256` (`as u8`). -/
def decodeLoop : List Char → Nat → Nat → List Nat → Except String (List Nat)
  | [], _, _, output => .ok output
  | c :: cs, buffer, bits_collected, output =>
    if c = '=' then
      .ok output
    else
      match b64Value c with
      | none => .error ("Invalid base64 character: ".push c)
      | some value =>
        let buffer1 := (((buffer <<< 6) % 2 ^ 32) ||| value)
        let bits1 := bits_collected + 6
        if 8 ≤ bits1 then
          let bits2 := bits1 - 8
          decodeLoop cs (buffer1 &&& (((1 <<< bits2) % 2 ^ 32) - 1)) bits2
            (output ++ [(buffer1 >>> bits2) % 256])
        else
          decodeLoop cs buffer1 bits1 output

/-- `fn base64_decode(input: &str) -> Result<Vec<u8>, String>`:
trim, drop all whitespace, then run the bit-accumulation loop. -/
def base64_decode (input : List Char) : Except String (List Nat) :=
  let chars := (rustTrim input).filter (fun c => !rustIsWhitespace c)
  decodeLoop chars 0 0 []

/-! ## Reference decoder, modelled from the spec's words (§4.4):
each alphabet symbol contributes 6 bits, accumulated most-significant-bit
first into one bit stream, and a byte is emitted for every full 8 bits. -/

/-- The low `n` bits of `x`, most significant first. -/
def natBits (x : Nat) : Nat → List Bool
  | 0 => []
  | n + 1 => x.testBit n :: natBits x n

/-- Read a bit list, most significant first, as a number. -/
def byteOfBits (l : List Bool) : Nat :=
  l.foldl (fun a b => 2 * a + (if b then 1 else 0)) 0

/-- Split a bit stream into bytes; leftover bits (fewer than 8) are
discarded. -/
def bytesOfBits : List Bool → List Nat
  | b0 :: b1 :: b2 :: b3 :: b4 :: b5 :: b6 :: b7 :: rest =>
      byteOfBits [b0, b1, b2, b3, b4, b5, b6, b7] :: bytesOfBits rest
  | _ => []

/-- Reference 6-bit value of an alphabet symbol (position in the standard
alphabet, compared at the character level). -/
def refSymbolValue (c : Char) : Nat :=
  (B64CHARS.findIdx? (fun x => x == c)).getD 0

/-- Reference decoder on a run of alphabet symbols: concatenate the 6-bit
groups most-significant-bit first and emit every full byte. -/
def refDecode (s : List Char) : List Nat :=
  bytesOfBits (s.flatMap (fun c => natBits (refSymbolValue c) 6))

/-- The bytes the implementation's loop produces for a run of symbols,
expressed through the byte-truncated lookup it performs. -/
def decodedBytes (s : List Char) : List Nat :=
  bytesOfBits (s.flatMap (fun c => natBits ((b64Value c).getD 0) 6))

/-! ## Screenshot buffer (server.rs lines 11-25)

`static SCREENSHOT_DATA: Mutex<Option<String>>` is modelled as explicit
state of type `Option String`; in this sequential model `lock()` always
succeeds, so the poisoned-mutex fallbacks are unreachable. -/

/-- `set_screenshot_data`: store the new value, overwriting the slot. -/
def set_screenshot_data (data : String) (_slot : Option String) : Option String :=
  some data

/-- `take_screenshot_data`: return the current value and clear the slot
(`Option::take`); the pair is (returned value, new slot contents). -/
def take_screenshot_data (slot : Option String) : Option String × Option String :=
  (slot, none)

/-! ## JSON values and HTTP responses -/

/-- Structural model of `serde_json::Value`. -/
inductive JsonVal where
  | null
  | bool (b : Bool)
  | num (n : Nat)
  | str (s : String)
  | arr (xs : List JsonVal)
  | obj (fields : List (String × JsonVal))

/-- `serde_json::Value::get` on an object: look the key up. -/
def jsonGet : JsonVal → String → Option JsonVal
  | .obj fields, key => fields.lookup key
  | _, _ => none

/-- `serde_json::Value::as_str`. -/
def jsonAsStr : JsonVal → Option String
  | .str s => some s
  | _ => none

/-- A response body: serialized JSON (kept structural, since
`serde_json::to_vec` is injective and external) or raw bytes. -/
inductive ResponseBody where
  | jsonBody (v : JsonVal)
  | byteBody (b : List Nat)

/-- Model of `tiny_http::Response`: status, headers, body. -/
structure HttpResponse where
  status : Nat
  headers : List (String × String)
  body : ResponseBody

/-- `json_response_with_status` (server.rs lines 275-292). -/
def json_response_with_status (data : JsonVal) (status : Nat) : HttpResponse :=
  ⟨status,
   [("Content-Type", "application/json"),
    ("Access-Control-Allow-Origin", "*"),
    ("Access-Control-Allow-Methods", "GET, POST, OPTIONS"),
    ("Access-Control-Allow-Headers", "Content-Type")],
   .jsonBody data⟩

/-- `json_response` (server.rs lines 270-272). -/
def json_response (data : JsonVal) : HttpResponse :=
  json_response_with_status data 200

/-- `png_response` (server.rs lines 295-309). -/
def png_response (data : List Nat) : HttpResponse :=
  ⟨200,
   [("Content-Type", "image/png"),
    ("Access-Control-Allow-Origin", "*")],
   .byteBody data⟩

/-- `cors_response` (server.rs lines 312-326): 204, empty byte body. -/
def cors_response : HttpResponse :=
  ⟨204,
   [("Access-Control-Allow-Origin", "*"),
    ("Access-Control-Allow-Methods", "GET, POST, OPTIONS"),
    ("Access-Control-Allow-Headers", "Content-Type")],
   .byteBody []⟩

/-! ## The request handlers (server.rs lines 88-235) -/

/-- A directive handed to the web view by `window.eval`.  The JavaScript
template built by `format!` is abstracted to its varying data: the
command name and the (serialized) args for execute, nothing for the
screenshot capture script. -/
inductive Directive where
  | execCmd (command : String) (args : JsonVal)
  | captureShot

/-- Joint outcome of the two external steps of `handle_execute` that
precede the field checks: reading the body (`read_to_string`) and
parsing it (`serde_json::from_str`). -/
inductive ExecInput where
  | readErrorCase (e : String)
  | parseErrorCase (e : String)
  | payload (v : JsonVal)

/-- Environment a handler consults: whether `get_window("main")` finds a
window, the outcome of `window.eval` (`none` = `Ok`), and the screenshot
buffer contents at drain time (i.e. after the grace-period sleep). -/
structure AppEnv where
  mainWindow : Bool
  evalError : Option String
  screenshotBuffer : Option String

/-- `handle_execute` (server.rs lines 88-173).  Returns the response,
the final environment (the handler never writes the buffer), and the
directives handed to the web view.  The timed sleep has no observable
effect in this model. -/
def handle_execute (env : AppEnv) (input : ExecInput) :
    HttpResponse × AppEnv × List Directive :=
  match input with
  | .readErrorCase e =>
    (json_response_with_status (.obj [("error", .str ("Failed to read body: " ++ e))]) 400,
     env, [])
  | .parseErrorCase e =>
    (json_response_with_status (.obj [("error", .str ("Invalid JSON: " ++ e))]) 400,
     env, [])
  | .payload payload =>
    match (jsonGet payload "command").bind jsonAsStr with
    | none =>
      (json_response_with_status (.obj [("error", .str "Missing 'command' field")]) 400,
       env, [])
    | some command =>
      let args := (jsonGet payload "args").getD (.obj [])
      if env.mainWindow then
        match env.evalError with
        | some e =>
          (json_response_with_status
            (.obj [("error", .str ("Script execution failed: " ++ e))]) 500,
           env, [.execCmd command args])
        | none =>
          (json_response
            (.obj [("success", .bool true), ("message", .str "Command executed"),
                   ("command", .str command)]),
           env, [.execCmd command args])
      else
        (json_response_with_status (.obj [("error", .str "Main window not found")]) 500,
         env, [])

/-- `str::strip_prefix`, on character lists. -/
def dropPrefixChars : List Char → List Char → Option (List Char)
  | [], s => some s
  | _ :: _, [] => none
  | p :: ps, c :: cs => if p = c then dropPrefixChars ps cs else none

/-- The literal data-URL marker `handle_screenshot` matches on. -/
def pngPrefixChars : List Char := "data:image/png;base64,".toList

/-- `handle_screenshot` (server.rs lines 176-235). -/
def handle_screenshot (env : AppEnv) : HttpResponse × AppEnv × List Directive :=
  if env.mainWindow then
    match env.evalError with
    | some e =>
      (json_response_with_status
        (.obj [("error", .str ("Screenshot request failed: " ++ e))]) 500,
       env, [.captureShot])
    | none =>
      let taken := take_screenshot_data env.screenshotBuffer
      let env1 : AppEnv := ⟨env.mainWindow, env.evalError, taken.2⟩
      match taken.1 with
      | some data_url =>
        match dropPrefixChars pngPrefixChars data_url.toList with
        | some base64_data =>
          match base64_decode base64_data with
          | .ok bytes => (png_response bytes, env1, [.captureShot])
          | .error e =>
            (json_response_with_status
              (.obj [("error", .str ("Base64 decode failed: " ++ e))]) 500,
             env1, [.captureShot])
        | none =>
          (json_response_with_status
            (.obj [("error",
              .str "Screenshot not available. Make sure html2canvas is loaded.")]) 500,
           env1, [.captureShot])
      | none =>
        (json_response_with_status
          (.obj [("error",
            .str "Screenshot not available. Make sure html2canvas is loaded.")]) 500,
         env1, [.captureShot])
  else
    (json_response_with_status (.obj [("error", .str "Main window not found")]) 500,
     env, [])

/-! ## Routing (server.rs lines 41-85) -/

/-- `tiny_http::Method`. -/
inductive HttpMethod where
  | get | head | post | put | delete | connect | options | trace | patch
  | nonStandard (s : String)
deriving DecidableEq

/-- `const PORT: u16 = 9876`. -/
def PORT : Nat := 9876

/-- The `match (&method, url.as_str())` dispatch of `start_server`:
per-request routing to a handler.  `input` is the execute-body outcome,
consumed only by the execute arm. -/
def route_request (env : AppEnv) (method : HttpMethod) (url : String)
    (input : ExecInput) : HttpResponse × AppEnv × List Directive :=
  match method, url with
  | .get, "/automation/health" =>
    (json_response
      (.obj [("status", .str "ok"), ("port", .num PORT), ("version", .str "1.0.0")]),
     env, [])
  | .post, "/automation/execute" => handle_execute env input
  | .get, "/automation/screenshot" => handle_screenshot env
  | .options, _ => (cors_response, env, [])
  | _, _ =>
    (json_response_with_status (.obj [("error", .str "Not found")]) 404, env, [])

/-! ## Arithmetic helper lemmas for the decoder proofs -/

/-- Bits of `b * 2 ^ n + v` (with `v < 2 ^ n`): low `n` bits come from
`v`, the rest from `b`. -/
theorem testBit_mulPowAdd (b v n i : Nat) (hv : v < 2 ^ n) :
    (b * 2 ^ n + v).testBit i = if i < n then v.testBit i else b.testBit (i - n) := by
  rcases Nat.lt_or_ge i n with h | h
  · rw [if_pos h, Nat.testBit_to_div_mod, Nat.testBit_to_div_mod]
    have hpow : (2 : Nat) ^ n = 2 ^ (n - i) * 2 ^ i := by
      rw [← Nat.pow_add]
      congr 1
      omega
    have hsplit : b * 2 ^ n + v = v + b * 2 ^ (n - i) * 2 ^ i := by
      rw [hpow]; ring
    rw [hsplit, Nat.add_mul_div_right _ _ (Nat.pos_pow_of_pos i (by omega))]
    have hpow2 : b * 2 ^ (n - i) = b * 2 ^ (n - i - 1) * 2 := by
      have : (2 : Nat) ^ (n - i) = 2 ^ (n - i - 1) * 2 := by
        rw [← Nat.pow_succ]
        congr 1
        omega
      rw [this]; ring
    rw [hpow2, Nat.add_mul_mod_self_right]
  · rw [if_neg (by omega), Nat.testBit_to_div_mod, Nat.testBit_to_div_mod]
    have hpow : (2 : Nat) ^ i = 2 ^ n * 2 ^ (i - n) := by
      rw [← Nat.pow_add]
      congr 1
      omega
    have hdiv : (b * 2 ^ n + v) / 2 ^ i = b / 2 ^ (i - n) := by
      rw [hpow, ← Nat.div_div_eq_div_mul]
      congr 1
      rw [Nat.add_comm, Nat.add_mul_div_right _ _ (Nat.pos_pow_of_pos n (by omega)),
        Nat.div_eq_of_lt hv, Nat.zero_add]
    rw [hdiv]

/-- Bitwise-or with a disjoint low part is addition. -/
theorem lor_mulPow (b v : Nat) (hv : v < 2 ^ 6) :
    (b * 2 ^ 6) ||| v = b * 2 ^ 6 + v := by
  apply Nat.eq_of_testBit_eq
  intro i
  rw [Nat.testBit_lor, testBit_mulPowAdd b v 6 i hv]
  rcases Nat.lt_or_ge i 6 with h | h
  · have hb : (b * 2 ^ 6).testBit i = false := by
      have := testBit_mulPowAdd b 0 6 i (by norm_num)
      rw [Nat.add_zero] at this
      rw [this, if_pos h, Nat.zero_testBit]
    rw [hb, if_pos h, Bool.false_or]
  · have hvf : v.testBit i = false :=
      Nat.testBit_lt_two_pow (lt_of_lt_of_le hv (Nat.pow_le_pow_right (by omega) h))
    have hb : (b * 2 ^ 6).testBit i = b.testBit (i - 6) := by
      have := testBit_mulPowAdd b 0 6 i (by norm_num)
      rw [Nat.add_zero] at this
      rw [this, if_neg (by omega)]
    rw [hb, hvf, if_neg (by omega), Bool.or_false]

/-- Bits of a quotient are shifted bits of the number. -/
theorem testBit_div_pow (x m i : Nat) : (x / 2 ^ m).testBit i = x.testBit (m + i) := by
  rw [Nat.testBit_to_div_mod, Nat.testBit_to_div_mod, Nat.div_div_eq_div_mul, ← Nat.pow_add]

theorem natBits_congr (x y n : Nat) (h : ∀ i, i < n → x.testBit i = y.testBit i) :
    natBits x n = natBits y n := by
  induction n with
  | zero => rfl
  | succ n ih =>
    simp only [natBits]
    rw [h n (by omega), ih (fun i hi => h i (by omega))]

theorem natBits_length (x : Nat) : ∀ n, (natBits x n).length = n
  | 0 => rfl
  | n + 1 => by simp [natBits, natBits_length x n]

/-- Splitting a bit string: the top `m` bits of `b * 2 ^ n + v` are the
bits of `b`, the low `n` bits those of `v`. -/
theorem natBits_append (b v m n : Nat) (hv : v < 2 ^ n) :
    natBits (b * 2 ^ n + v) (m + n) = natBits b m ++ natBits v n := by
  induction m with
  | zero =>
    rw [Nat.zero_add]
    show natBits (b * 2 ^ n + v) n = [] ++ natBits v n
    rw [List.nil_append]
    exact natBits_congr _ _ _
      (fun i hi => by rw [testBit_mulPowAdd _ _ _ _ hv, if_pos hi])
  | succ m ih =>
    have hmn : m + 1 + n = (m + n) + 1 := by omega
    rw [hmn]
    simp only [natBits]
    rw [testBit_mulPowAdd _ _ _ _ hv, if_neg (by omega), ih]
    have : m + n - n = m := by omega
    rw [this, List.cons_append]

theorem byteOfBits_natBits_aux (x : Nat) :
    ∀ (n a : Nat),
      (natBits x n).foldl (fun a b => 2 * a + (if b then 1 else 0)) a =
        a * 2 ^ n + x % 2 ^ n
  | 0, a => by simp [natBits, Nat.mod_one]
  | n + 1, a => by
    simp only [natBits, List.foldl_cons]
    rw [byteOfBits_natBits_aux x n]
    have hbit : (if x.testBit n then 1 else 0) = x / 2 ^ n % 2 := by
      rw [Nat.testBit_to_div_mod]
      rcases Nat.mod_two_eq_zero_or_one (x / 2 ^ n) with h | h <;> simp [h]
    rw [hbit, Nat.mod_pow_succ, Nat.pow_succ]
    ring

/-- Reading back the low `n` bits most-significant-first gives `x % 2 ^ n`. -/
theorem byteOfBits_natBits (x n : Nat) : byteOfBits (natBits x n) = x % 2 ^ n := by
  unfold byteOfBits
  rw [byteOfBits_natBits_aux]
  simp

theorem bytesOfBits_small : ∀ (l : List Bool), l.length < 8 → bytesOfBits l = []
  | [], _ => rfl
  | [_], _ => rfl
  | [_, _], _ => rfl
  | [_, _, _], _ => rfl
  | [_, _, _, _], _ => rfl
  | [_, _, _, _, _], _ => rfl
  | [_, _, _, _, _, _], _ => rfl
  | [_, _, _, _, _, _, _], _ => rfl
  | _ :: _ :: _ :: _ :: _ :: _ :: _ :: _ :: _, h => by
    simp only [List.length_cons] at h
    omega

/-- Peeling the top eight bits off a bit string of length `k + 8`. -/
theorem natBits_peel8 (x k : Nat) :
    natBits x (k + 8) =
      x.testBit (k + 7) :: x.testBit (k + 6) :: x.testBit (k + 5) :: x.testBit (k + 4) ::
      x.testBit (k + 3) :: x.testBit (k + 2) :: x.testBit (k + 1) :: x.testBit k ::
      natBits x k := rfl

theorem natBits_div8 (x k : Nat) :
    natBits (x / 2 ^ k) 8 =
      [x.testBit (k + 7), x.testBit (k + 6), x.testBit (k + 5), x.testBit (k + 4),
       x.testBit (k + 3), x.testBit (k + 2), x.testBit (k + 1), x.testBit k] := by
  show [(x / 2 ^ k).testBit 7, (x / 2 ^ k).testBit 6, (x / 2 ^ k).testBit 5,
        (x / 2 ^ k).testBit 4, (x / 2 ^ k).testBit 3, (x / 2 ^ k).testBit 2,
        (x / 2 ^ k).testBit 1, (x / 2 ^ k).testBit 0] = _
  simp only [testBit_div_pow]
  norm_num

theorem bytesOfBits_cons8 (b0 b1 b2 b3 b4 b5 b6 b7 : Bool) (t : List Bool) :
    bytesOfBits (b0 :: b1 :: b2 :: b3 :: b4 :: b5 :: b6 :: b7 :: t) =
      byteOfBits [b0, b1, b2, b3, b4, b5, b6, b7] :: bytesOfBits t := by
  rw [bytesOfBits]

theorem findIdx?_lt_length {α : Type} (p : α → Bool) :
    ∀ (l : List α) (i j : Nat), List.findIdx? p l i = some j → j < i + l.length
  | [], i, j, h => by simp at h
  | a :: t, i, j, h => by
    rw [List.findIdx?_cons] at h
    by_cases hp : p a
    · rw [if_pos hp] at h
      cases h
      simp
    · rw [if_neg hp] at h
      have := findIdx?_lt_length p t (i + 1) j h
      simp only [List.length_cons]
      omega

theorem b64Value_lt (c : Char) (v : Nat) (h : b64Value c = some v) : v < 2 ^ 6 := by
  have hb := findIdx?_lt_length _ ALPHABET 0 v h
  have hlen : ALPHABET.length = 64 := by decide
  omega

/-- Loop invariant for `decodeLoop`: over a run of accepted symbols
followed by nothing or by a padding character, the loop succeeds and
emits exactly the full bytes of the concatenated 6-bit groups (the
pending low bits in `buffer` first, most significant first). -/
theorem decodeLoop_valid (core : List Char) :
    ∀ (rest : List Char) (buffer bits : Nat) (out : List Nat),
      (∀ c ∈ core, c ≠ '=' ∧ (b64Value c).isSome) →
      (rest = [] ∨ ∃ r, rest = '=' :: r) →
      bits < 8 → buffer < 2 ^ bits →
      decodeLoop (core ++ rest) buffer bits out =
        .ok (out ++ bytesOfBits (natBits buffer bits ++
          core.flatMap (fun c => natBits ((b64Value c).getD 0) 6))) := by
  induction core with
  | nil =>
    intro rest buffer bits out _ hrest hb hbuf
    have hsmall : bytesOfBits (natBits buffer bits) = [] :=
      bytesOfBits_small _ (by rw [natBits_length]; omega)
    rcases hrest with rfl | ⟨r, rfl⟩
    · simp [decodeLoop, hsmall]
    · simp [decodeLoop, hsmall]
  | cons c cs ih =>
    intro rest buffer bits out hvalid hrest hb hbuf
    obtain ⟨hne, hsome⟩ := hvalid c (List.mem_cons_self c cs)
    obtain ⟨v, hv⟩ := Option.isSome_iff_exists.mp hsome
    have hv64 : v < 2 ^ 6 := b64Value_lt c v hv
    have hvalid' : ∀ d ∈ cs, d ≠ '=' ∧ (b64Value d).isSome :=
      fun d hd => hvalid d (List.mem_cons_of_mem c hd)
    have hbuf8 : buffer < 2 ^ 8 :=
      lt_of_lt_of_le hbuf (Nat.pow_le_pow_right (by omega) (by omega))
    have hm32 : buffer * 2 ^ 6 < 2 ^ 32 := by
      have e1 : (2 : Nat) ^ 8 = 256 := by norm_num
      have e2 : (2 : Nat) ^ 6 = 64 := by norm_num
      have e3 : (2 : Nat) ^ 32 = 4294967296 := by norm_num
      rw [e1] at hbuf8
      rw [e2, e3]
      omega
    have he1 : ((buffer <<< 6) % 2 ^ 32) ||| v = buffer * 2 ^ 6 + v := by
      rw [Nat.shiftLeft_eq, Nat.mod_eq_of_lt hm32]
      exact lor_mulPow buffer v hv64
    rw [List.cons_append]
    simp only [decodeLoop, if_neg hne, hv, he1]
    simp only [List.flatMap_cons, hv, Option.getD_some]
    rw [← List.append_assoc, ← natBits_append buffer v bits 6 hv64]
    by_cases h8 : 8 ≤ bits + 6
    · rw [if_pos h8]
      have hmask : (1 <<< (bits + 6 - 8)) % 2 ^ 32 = 2 ^ (bits + 6 - 8) := by
        rw [Nat.shiftLeft_eq, Nat.one_mul]
        apply Nat.mod_eq_of_lt
        have h1 : (2 : Nat) ^ (bits + 6 - 8) ≤ 2 ^ 6 := Nat.pow_le_pow_right (by omega) (by omega)
        have e2 : (2 : Nat) ^ 6 = 64 := by norm_num
        have e3 : (2 : Nat) ^ 32 = 4294967296 := by norm_num
        omega
      rw [hmask, Nat.and_pow_two_sub_one_eq_mod, Nat.shiftRight_eq_div_pow]
      rw [ih rest _ _ _ hvalid' hrest (by omega)
        (Nat.mod_lt _ (Nat.pos_pow_of_pos _ (by omega)))]
      set k := bits + 6 - 8 with hkdef
      rw [show bits + 6 = k + 8 from by omega]
      rw [natBits_peel8]
      simp only [List.cons_append]
      rw [bytesOfBits_cons8]
      rw [← natBits_div8, byteOfBits_natBits]
      have h256 : (2 : Nat) ^ 8 = 256 := by norm_num
      rw [h256]
      have htail : natBits ((buffer * 2 ^ 6 + v) % 2 ^ k) k =
          natBits (buffer * 2 ^ 6 + v) k :=
        natBits_congr _ _ _ (fun i hi => by rw [Nat.testBit_mod_two_pow]; simp [hi])
      rw [htail]
      simp [List.append_assoc]
    · rw [if_neg h8]
      have hx6 : buffer * 2 ^ 6 + v < 2 ^ (bits + 6) := by
        have hle : buffer + 1 ≤ 2 ^ bits := hbuf
        have e2 : (2 : Nat) ^ 6 = 64 := by norm_num
        rw [Nat.pow_add, e2]
        rw [e2] at hv64
        omega
      exact ih rest _ _ _ hvalid' hrest (by omega) hx6

/-- Error propagation: a character that is not `'='` and that the
byte-truncated alphabet lookup rejects makes the loop fail with the
message naming it, whatever valid symbols precede it. -/
theorem decodeLoop_err (c : Char) (post : List Char)
    (hc : c ≠ '=') (hcv : b64Value c = none) :
    ∀ (pre : List Char) (buffer bits : Nat) (out : List Nat),
      (∀ d ∈ pre, d ≠ '=' ∧ (b64Value d).isSome) →
      decodeLoop (pre ++ c :: post) buffer bits out =
        .error ("Invalid base64 character: ".push c) := by
  intro pre
  induction pre with
  | nil =>
    intro buffer bits out _
    simp [decodeLoop, if_neg hc, hcv]
  | cons d t ih =>
    intro buffer bits out hv
    obtain ⟨hd, hds⟩ := hv d (List.mem_cons_self d t)
    obtain ⟨w, hw⟩ := Option.isSome_iff_exists.mp hds
    have hv' : ∀ e ∈ t, e ≠ '=' ∧ (b64Value e).isSome :=
      fun e he => hv e (List.mem_cons_of_mem d he)
    rw [List.cons_append]
    simp only [decodeLoop, if_neg hd, hw]
    by_cases h8 : 8 ≤ bits + 6
    · rw [if_pos h8]
      exact ih _ _ _ hv'
    · rw [if_neg h8]
      exact ih _ _ _ hv'

/-- Trimming first does not change the result of removing all
whitespace. -/
theorem filter_rustTrim (l : List Char) :
    (rustTrim l).filter (fun c => !rustIsWhitespace c) =
      l.filter (fun c => !rustIsWhitespace c) := by
  have hdrop : ∀ (x : List Char),
      (x.dropWhile rustIsWhitespace).filter (fun c => !rustIsWhitespace c) =
        x.filter (fun c => !rustIsWhitespace c) := by
    intro x
    induction x with
    | nil => rfl
    | cons a t ih =>
      by_cases ha : rustIsWhitespace a
      · simp [List.dropWhile_cons, ha, ih, List.filter_cons]
      · simp [List.dropWhile_cons, ha, List.filter_cons]
  unfold rustTrim
  rw [List.filter_reverse, hdrop, List.filter_reverse, List.reverse_reverse, hdrop]

/-- Table facts about the 64 alphabet symbols: never `'='`, never
whitespace, accepted by the byte-truncated lookup, and the looked-up
value agrees with the reference symbol value. -/
theorem b64chars_spec :
    ∀ c ∈ B64CHARS, c ≠ '=' ∧ (b64Value c).isSome ∧
      (b64Value c).getD 0 = refSymbolValue c ∧ rustIsWhitespace c = false := by
  decide

theorem flatMap_congr {α β : Type} (l : List α) (f g : α → List β)
    (h : ∀ a ∈ l, f a = g a) : l.flatMap f = l.flatMap g := by
  induction l with
  | nil => rfl
  | cons a t ih =>
    rw [List.flatMap_cons, List.flatMap_cons, h a (List.mem_cons_self a t),
      ih (fun x hx => h x (List.mem_cons_of_mem a hx))]

/-- The byte splitter produces one byte per full 8 bits. -/
theorem bytesOfBits_length : ∀ (l : List Bool), (bytesOfBits l).length = l.length / 8
  | [] => by simp [bytesOfBits]
  | [_] => by simp [bytesOfBits]
  | [_, _] => by simp [bytesOfBits]
  | [_, _, _] => by simp [bytesOfBits]
  | [_, _, _, _] => by simp [bytesOfBits]
  | [_, _, _, _, _] => by simp [bytesOfBits]
  | [_, _, _, _, _, _] => by simp [bytesOfBits]
  | [_, _, _, _, _, _, _] => by simp [bytesOfBits]
  | b0 :: b1 :: b2 :: b3 :: b4 :: b5 :: b6 :: b7 :: t => by
    rw [bytesOfBits_cons8]
    simp only [List.length_cons, bytesOfBits_length t]
    omega

theorem length_flatMap_const {α β : Type} (l : List α) (f : α → List β) (n : Nat)
    (h : ∀ a ∈ l, (f a).length = n) : (l.flatMap f).length = n * l.length := by
  induction l with
  | nil => simp
  | cons a t ih =>
    rw [List.flatMap_cons, List.length_append, h a (List.mem_cons_self a t),
      ih (fun x hx => h x (List.mem_cons_of_mem a hx))]
    simp only [List.length_cons]
    ring

/-! ## Claim theorems -/

/-- C1: for every valid base64 string (a run of alphabet symbols followed
by 0, 1 or 2 trailing padding characters, with total symbol count a
multiple of four, and possibly interspersed whitespace, which is
discarded), `base64_decode` returns exactly the bytes of the reference
decoder: 6 bits per symbol, accumulated most-significant-bits first, one
byte emitted per full 8 bits. -/
theorem base64_decode_matches_reference
    (s core : List Char) (k : Nat)
    (hsplit : s.filter (fun c => !rustIsWhitespace c) = core ++ List.replicate k '=')
    (hcore : ∀ c ∈ core, c ∈ B64CHARS)
    (hk : k ≤ 2)
    (hlen : (core.length + k) % 4 = 0) :
    base64_decode s = .ok (refDecode core) := by
  unfold base64_decode
  rw [filter_rustTrim, hsplit]
  have hrest : List.replicate k '=' = [] ∨ ∃ r, List.replicate k '=' = '=' :: r := by
    cases k with
    | zero => exact Or.inl rfl
    | succ k => exact Or.inr ⟨List.replicate k '=', rfl⟩
  have hvalid : ∀ c ∈ core, c ≠ '=' ∧ (b64Value c).isSome := fun c hc =>
    ⟨(b64chars_spec c (hcore c hc)).1, (b64chars_spec c (hcore c hc)).2.1⟩
  rw [decodeLoop_valid core _ 0 0 [] hvalid hrest (by omega) (by norm_num)]
  rw [List.nil_append]
  show Except.ok (bytesOfBits (natBits 0 0 ++ _)) = _
  rw [show natBits 0 0 = [] from rfl, List.nil_append]
  unfold refDecode
  rw [flatMap_congr core _ _
    (fun c hc => by rw [(b64chars_spec c (hcore c hc)).2.2.1])]

theorem base64_decode_matches_reference_witness :
    base64_decode "TWFu".toList = .ok (refDecode "TWFu".toList) ∧
    refDecode "TWFu".toList = [77, 97, 110] :=
  ⟨base64_decode_matches_reference "TWFu".toList "TWFu".toList 0
      (by decide) (by decide) (by decide) (by decide),
   by decide⟩

/-- C2 counterexample: the claim "any character outside the alphabet that
is neither whitespace nor '=' makes `base64_decode` return an error" is
false on the code.  Two closed refutations: `'@'` placed after a `'='`
is ignored entirely (the loop stops at the first `'='`), and `'Ł'`
(U+0141, code point 321) is outside the alphabet yet accepted, because
the lookup compares `c as u8` and `321 % 256 = 65 = 'A'`. -/
theorem base64_decode_invalid_char_counterexample :
    (rustIsWhitespace '@' = false ∧ '@' ∉ B64CHARS ∧ '@' ≠ '=' ∧
      base64_decode "=@".toList = .ok []) ∧
    (rustIsWhitespace (Char.ofNat 321) = false ∧ Char.ofNat 321 ∉ B64CHARS ∧
      Char.ofNat 321 ≠ '=' ∧
      base64_decode [Char.ofNat 321] = .ok []) := by
  constructor
  · refine ⟨rfl, by decide, by decide, rfl⟩
  · refine ⟨rfl, by decide, by decide, rfl⟩

/-- C2 amended: if, after whitespace removal, some character before the
first `'='` is rejected by the byte-truncated alphabet lookup (its code
point's low 8 bits match no alphabet byte), then `base64_decode` fails
with an error naming the first such character.  Characters at or after
the first `'='` are ignored, and a non-alphabet character whose low byte
coincides with an alphabet byte is accepted as that symbol. -/
theorem base64_decode_invalid_char_amended
    (s pre post : List Char) (c : Char)
    (hsplit : s.filter (fun x => !rustIsWhitespace x) = pre ++ c :: post)
    (hpre : ∀ d ∈ pre, d ≠ '=' ∧ (b64Value d).isSome)
    (hc : c ≠ '=') (hcv : b64Value c = none) :
    base64_decode s = .error ("Invalid base64 character: ".push c) := by
  unfold base64_decode
  rw [filter_rustTrim, hsplit]
  exact decodeLoop_err c post hc hcv pre 0 0 [] hpre

theorem base64_decode_invalid_char_amended_witness :
    base64_decode "ab@cd".toList = .error ("Invalid base64 character: ".push '@') :=
  base64_decode_invalid_char_amended "ab@cd".toList ['a', 'b'] "cd".toList '@'
    (by decide) (by decide) (by decide) (by decide)

/-- C10: for every input whose non-whitespace characters before the first
`'='` are all alphabet symbols, `base64_decode` succeeds, its output has
exactly `3 * n / 4` bytes for `n` such symbols (leftover groups of fewer
than 8 accumulated bits are silently discarded, so lengths that are not
valid base64 lengths still decode), and everything at or after the first
`'='` is ignored entirely (the result depends only on the symbols before
it). -/
theorem base64_decode_partial_groups
    (s g rest : List Char)
    (hsplit : s.filter (fun c => !rustIsWhitespace c) = g ++ rest)
    (hg : ∀ c ∈ g, c ∈ B64CHARS)
    (hrest : rest = [] ∨ ∃ r, rest = '=' :: r) :
    base64_decode s = .ok (decodedBytes g) ∧
    (decodedBytes g).length = 3 * g.length / 4 := by
  have hvalid : ∀ c ∈ g, c ≠ '=' ∧ (b64Value c).isSome := fun c hc =>
    ⟨(b64chars_spec c (hg c hc)).1, (b64chars_spec c (hg c hc)).2.1⟩
  constructor
  · unfold base64_decode
    rw [filter_rustTrim, hsplit]
    rw [decodeLoop_valid g rest 0 0 [] hvalid hrest (by omega) (by norm_num)]
    rw [List.nil_append]
    show Except.ok (bytesOfBits (natBits 0 0 ++ _)) = _
    rw [show natBits 0 0 = [] from rfl, List.nil_append]
    rfl
  · unfold decodedBytes
    rw [bytesOfBits_length]
    rw [length_flatMap_const g _ 6 (fun c _ => natBits_length _ 6)]
    omega

theorem base64_decode_partial_groups_witness :
    base64_decode "QQ==rubbish!!".toList = .ok (decodedBytes "QQ".toList) ∧
    decodedBytes "QQ".toList = [65] ∧ 3 * ("QQ".toList).length / 4 = 1 :=
  ⟨(base64_decode_partial_groups "QQ==rubbish!!".toList "QQ".toList
      "==rubbish!!".toList (by decide) (by decide)
      (Or.inr ⟨"=rubbish!!".toList, by decide⟩)).1,
   by decide, by decide⟩

/-- C3: the screenshot buffer holds at most one pending value (its state
type is a single optional slot); a write overwrites any prior unread
value (after two writes without an intervening take, take returns only
the second value and a subsequent take returns empty), and take
atomically returns the current value and clears the slot. -/
theorem screenshot_buffer_single_slot :
    ∀ (slot : Option String) (a b : String),
      set_screenshot_data b (set_screenshot_data a slot) = some b ∧
      (take_screenshot_data (set_screenshot_data b (set_screenshot_data a slot))).1 =
        some b ∧
      (take_screenshot_data
        (take_screenshot_data (set_screenshot_data b (set_screenshot_data a slot))).2).1 =
        none ∧
      (∀ t : Option String, take_screenshot_data t = (t, none)) :=
  fun _ _ _ => ⟨rfl, rfl, rfl, fun _ => rfl⟩

/-- C4 counterexample: the claim also demands rejection of an *empty*
command string, but `as_str` accepts the empty string, so the handler
proceeds and (with the window present and the handoff succeeding)
answers 200, not 400. -/
theorem handle_execute_empty_command_counterexample :
    (jsonGet (.obj [("command", .str "")]) "command").bind jsonAsStr = some "" ∧
    (handle_execute ⟨true, none, none⟩
      (.payload (.obj [("command", .str "")]))).1.status = 200 ∧
    (handle_execute ⟨true, none, none⟩
      (.payload (.obj [("command", .str "")]))).2.2 = [.execCmd "" (.obj [])] :=
  ⟨rfl, rfl, rfl⟩

/-- C4 amended: for every request whose body parses as JSON but whose
command field is absent or not a string (an empty string is accepted),
the handler responds 400 with an error naming the missing command field,
and the rejection happens before any side effect: no directive is handed
to the web view and the environment (including the screenshot buffer) is
unchanged. -/
theorem handle_execute_missing_command_amended
    (env : AppEnv) (payload : JsonVal)
    (h : (jsonGet payload "command").bind jsonAsStr = none) :
    handle_execute env (.payload payload) =
      (json_response_with_status (.obj [("error", .str "Missing 'command' field")]) 400,
       env, []) := by
  simp [handle_execute, h]

theorem handle_execute_missing_command_amended_witness :
    handle_execute ⟨true, none, none⟩ (.payload (.obj [])) =
      (json_response_with_status (.obj [("error", .str "Missing 'command' field")]) 400,
       ⟨true, none, none⟩, []) :=
  handle_execute_missing_command_amended ⟨true, none, none⟩ (.obj []) rfl

/-- C5: for every parsed body with a string command field, when the main
window exists and the directive handoff succeeds, the handler responds
200 with exactly the success body naming the command — regardless of the
remote execution outcome, which the model does not even consult — and
the args default to the empty object when absent, never failing. -/
theorem handle_execute_success
    (env : AppEnv) (payload : JsonVal) (cmd : String)
    (hw : env.mainWindow = true) (he : env.evalError = none)
    (hc : (jsonGet payload "command").bind jsonAsStr = some cmd) :
    handle_execute env (.payload payload) =
      (json_response
        (.obj [("success", .bool true), ("message", .str "Command executed"),
               ("command", .str cmd)]),
       env, [.execCmd cmd ((jsonGet payload "args").getD (.obj []))]) ∧
    (jsonGet payload "args" = none →
      (jsonGet payload "args").getD (.obj []) = .obj []) := by
  refine ⟨?_, fun h => by rw [h, Option.getD_none]⟩
  obtain ⟨mw, ee, sb⟩ := env
  simp only at hw he
  subst hw he
  simp [handle_execute, hc]

theorem handle_execute_success_witness :
    handle_execute ⟨true, none, none⟩
        (.payload (.obj [("command", .str "click")])) =
      (json_response
        (.obj [("success", .bool true), ("message", .str "Command executed"),
               ("command", .str "click")]),
       ⟨true, none, none⟩, [.execCmd "click" (.obj [])]) :=
  (handle_execute_success ⟨true, none, none⟩ (.obj [("command", .str "click")])
    "click" rfl rfl rfl).1

theorem dropPrefixChars_self_append :
    ∀ (p s : List Char), dropPrefixChars p (p ++ s) = some s
  | [], _ => rfl
  | c :: ps, s => by simp [dropPrefixChars, dropPrefixChars_self_append ps s]

/-- Reduction of `handle_screenshot` in the state "window present, eval
succeeded, buffer full", down to the data-URL dissection. -/
theorem handle_screenshot_eq_some (url : String) :
    handle_screenshot ⟨true, none, some url⟩ =
      match dropPrefixChars pngPrefixChars url.toList with
      | some base64_data =>
        match base64_decode base64_data with
        | .ok bytes => (png_response bytes, ⟨true, none, none⟩, [.captureShot])
        | .error e =>
          (json_response_with_status
            (.obj [("error", .str ("Base64 decode failed: " ++ e))]) 500,
           ⟨true, none, none⟩, [.captureShot])
      | none =>
        (json_response_with_status
          (.obj [("error",
            .str "Screenshot not available. Make sure html2canvas is loaded.")]) 500,
         ⟨true, none, none⟩, [.captureShot]) := rfl

/-- C6: when the main window exists, the capture directive is handed off
successfully, and the drained buffer value is the PNG data URL prefix
followed by a payload, the handler answers 200 with content type
image/png, the wildcard allow-origin header, and the decoded payload
bytes as body; if decoding the payload fails it answers 500 with a
base64-decode error. -/
theorem handle_screenshot_png
    (env : AppEnv) (payload : String)
    (hw : env.mainWindow = true) (he : env.evalError = none)
    (hb : env.screenshotBuffer = some ("data:image/png;base64," ++ payload)) :
    (∀ bytes, base64_decode payload.toList = .ok bytes →
      handle_screenshot env =
        (png_response bytes, ⟨true, none, none⟩, [.captureShot]) ∧
      (png_response bytes).status = 200 ∧
      ("Content-Type", "image/png") ∈ (png_response bytes).headers ∧
      ("Access-Control-Allow-Origin", "*") ∈ (png_response bytes).headers ∧
      (png_response bytes).body = .byteBody bytes) ∧
    (∀ e, base64_decode payload.toList = .error e →
      handle_screenshot env =
        (json_response_with_status
          (.obj [("error", .str ("Base64 decode failed: " ++ e))]) 500,
         ⟨true, none, none⟩, [.captureShot])) := by
  obtain ⟨mw, ee, sb⟩ := env
  simp only at hw he hb
  subst hw he hb
  have hstrip : dropPrefixChars pngPrefixChars
      ("data:image/png;base64," ++ payload).toList = some payload.toList := by
    have hdata : ("data:image/png;base64," ++ payload).toList =
        pngPrefixChars ++ payload.toList := by
      show ("data:image/png;base64," ++ payload).data = _
      rw [String.data_append]
      rfl
    rw [hdata, dropPrefixChars_self_append]
  constructor
  · intro bytes hdec
    refine ⟨?_, rfl, by simp [png_response], by simp [png_response], rfl⟩
    simp only [handle_screenshot_eq_some, hstrip, hdec]
  · intro e hdec
    simp only [handle_screenshot_eq_some, hstrip, hdec]

theorem handle_screenshot_png_witness :
    handle_screenshot ⟨true, none, some ("data:image/png;base64," ++ "QQ==")⟩ =
      (png_response [65], ⟨true, none, none⟩, [.captureShot]) :=
  ((handle_screenshot_png ⟨true, none, some ("data:image/png;base64," ++ "QQ==")⟩
    "QQ==" rfl rfl rfl).1 [65] rfl).1

/-- C7: when the main window exists and the capture directive is handed
off, if the buffer is empty at drain time, or holds a value that does
not start with the literal PNG data URL prefix, the handler answers 500
with the screenshot-unavailable error; in both cases the body is a JSON
error (no image bytes) and the buffer is left empty (the take drains it
even when the prefix does not match). -/
theorem handle_screenshot_unavailable
    (env : AppEnv)
    (hw : env.mainWindow = true) (he : env.evalError = none) :
    (env.screenshotBuffer = none →
      handle_screenshot env =
        (json_response_with_status
          (.obj [("error",
            .str "Screenshot not available. Make sure html2canvas is loaded.")]) 500,
         ⟨true, none, none⟩, [.captureShot])) ∧
    (∀ s, env.screenshotBuffer = some s →
      dropPrefixChars pngPrefixChars s.toList = none →
      handle_screenshot env =
        (json_response_with_status
          (.obj [("error",
            .str "Screenshot not available. Make sure html2canvas is loaded.")]) 500,
         ⟨true, none, none⟩, [.captureShot])) := by
  obtain ⟨mw, ee, sb⟩ := env
  simp only at hw he
  subst hw he
  constructor
  · intro hb
    simp only at hb
    subst hb
    rfl
  · intro s hb hp
    simp only at hb
    subst hb
    simp only [handle_screenshot_eq_some, hp]

theorem handle_screenshot_unavailable_witness :
    handle_screenshot ⟨true, none, none⟩ =
      (json_response_with_status
        (.obj [("error",
          .str "Screenshot not available. Make sure html2canvas is loaded.")]) 500,
       ⟨true, none, none⟩, [.captureShot]) ∧
    handle_screenshot ⟨true, none, some "nope"⟩ =
      (json_response_with_status
        (.obj [("error",
          .str "Screenshot not available. Make sure html2canvas is loaded.")]) 500,
       ⟨true, none, none⟩, [.captureShot]) :=
  ⟨(handle_screenshot_unavailable ⟨true, none, none⟩ rfl rfl).1 rfl,
   (handle_screenshot_unavailable ⟨true, none, some "nope"⟩ rfl rfl).2 "nope" rfl rfl⟩

/-- C8: the server routes by exact (method, path) match: GET health to
the health handler (200 with status/port/version), POST execute to the
command dispatcher, GET screenshot to the screenshot pipeline; OPTIONS
on any path yields 204 with an empty body, the three CORS headers and no
content type; every other combination yields the 404 not-found JSON
body. -/
theorem route_request_table
    (env : AppEnv) (input : ExecInput) (url : String) (m : HttpMethod) :
    route_request env .get "/automation/health" input =
      (json_response
        (.obj [("status", .str "ok"), ("port", .num 9876), ("version", .str "1.0.0")]),
       env, []) ∧
    route_request env .post "/automation/execute" input = handle_execute env input ∧
    route_request env .get "/automation/screenshot" input = handle_screenshot env ∧
    route_request env .options url input = (cors_response, env, []) ∧
    cors_response.status = 204 ∧
    cors_response.body = .byteBody [] ∧
    cors_response.headers =
      [("Access-Control-Allow-Origin", "*"),
       ("Access-Control-Allow-Methods", "GET, POST, OPTIONS"),
       ("Access-Control-Allow-Headers", "Content-Type")] ∧
    (m ≠ .options →
      ¬(m = .get ∧ url = "/automation/health") →
      ¬(m = .post ∧ url = "/automation/execute") →
      ¬(m = .get ∧ url = "/automation/screenshot") →
      route_request env m url input =
        (json_response_with_status (.obj [("error", .str "Not found")]) 404, env, [])) := by
  refine ⟨rfl, rfl, rfl, rfl, rfl, rfl, rfl, ?_⟩
  intro hno hh he hs
  unfold route_request
  split
  · exact absurd ⟨rfl, rfl⟩ hh
  · exact absurd ⟨rfl, rfl⟩ he
  · exact absurd ⟨rfl, rfl⟩ hs
  · exact absurd rfl hno
  · rfl

theorem route_request_table_witness :
    route_request ⟨true, none, none⟩ .put "/nonexistent" (.payload (.obj [])) =
      (json_response_with_status (.obj [("error", .str "Not found")]) 404,
       ⟨true, none, none⟩, []) :=
  (route_request_table ⟨true, none, none⟩ (.payload (.obj [])) "/nonexistent"
      .put).2.2.2.2.2.2.2
    (by simp) (by simp) (by simp) (by simp)

/-- C9: both handlers are total functions — every request (any body
outcome, any buffer state, any window/eval combination) produces exactly
one response value; every non-success outcome is a JSON body with an
error message, and the status follows the error class: 400 exactly for
the caller-input errors of the dispatcher (body read failure, malformed
JSON, missing or non-string command) and 500 for the server/environment
errors (main window missing, script handoff failure, and every
screenshot-side failure). -/
theorem handlers_total (env : AppEnv) (input : ExecInput) :
    ((handle_execute env input).1.status = 200 ∨
      (((handle_execute env input).1.status = 400 ∨
        (handle_execute env input).1.status = 500) ∧
        ∃ msg, (handle_execute env input).1.body = .jsonBody (.obj [("error", .str msg)]))) ∧
    ((handle_screenshot env).1.status = 200 ∨
      ((handle_screenshot env).1.status = 500 ∧
        ∃ msg, (handle_screenshot env).1.body = .jsonBody (.obj [("error", .str msg)]))) ∧
    (∀ e, (handle_execute env (.readErrorCase e)).1 =
      json_response_with_status
        (.obj [("error", .str ("Failed to read body: " ++ e))]) 400) ∧
    (∀ e, (handle_execute env (.parseErrorCase e)).1 =
      json_response_with_status (.obj [("error", .str ("Invalid JSON: " ++ e))]) 400) ∧
    (∀ p, (jsonGet p "command").bind jsonAsStr = none →
      (handle_execute env (.payload p)).1 =
        json_response_with_status
          (.obj [("error", .str "Missing 'command' field")]) 400) ∧
    (∀ p cmd, (jsonGet p "command").bind jsonAsStr = some cmd →
      env.mainWindow = false →
      (handle_execute env (.payload p)).1 =
        json_response_with_status (.obj [("error", .str "Main window not found")]) 500) ∧
    (∀ p cmd e, (jsonGet p "command").bind jsonAsStr = some cmd →
      env.mainWindow = true → env.evalError = some e →
      (handle_execute env (.payload p)).1 =
        json_response_with_status
          (.obj [("error", .str ("Script execution failed: " ++ e))]) 500) ∧
    (env.mainWindow = false →
      (handle_screenshot env).1 =
        json_response_with_status (.obj [("error", .str "Main window not found")]) 500) ∧
    (∀ e, env.mainWindow = true → env.evalError = some e →
      (handle_screenshot env).1 =
        json_response_with_status
          (.obj [("error", .str ("Screenshot request failed: " ++ e))]) 500) := by
  obtain ⟨mw, ee, sb⟩ := env
  refine ⟨?_, ?_, fun e => rfl, fun e => rfl, ?_, ?_, ?_, ?_, ?_⟩
  · cases input with
    | readErrorCase e =>
      exact Or.inr ⟨Or.inl rfl, ("Failed to read body: " ++ e), rfl⟩
    | parseErrorCase e =>
      exact Or.inr ⟨Or.inl rfl, ("Invalid JSON: " ++ e), rfl⟩
    | payload p =>
      rcases hc : (jsonGet p "command").bind jsonAsStr with _ | cmd
      · refine Or.inr ⟨Or.inl ?_, "Missing 'command' field", ?_⟩ <;>
          simp [handle_execute, hc, json_response_with_status]
      · cases mw with
        | false =>
          refine Or.inr ⟨Or.inr ?_, "Main window not found", ?_⟩ <;>
            simp [handle_execute, hc, json_response_with_status]
        | true =>
          cases ee with
          | none =>
            exact Or.inl
              (by simp [handle_execute, hc, json_response, json_response_with_status])
          | some e =>
            refine Or.inr ⟨Or.inr ?_, ("Script execution failed: " ++ e), ?_⟩ <;>
              simp [handle_execute, hc, json_response_with_status]
  · cases mw with
    | false =>
      exact Or.inr ⟨rfl, "Main window not found", rfl⟩
    | true =>
      cases ee with
      | some e =>
        exact Or.inr ⟨rfl, ("Screenshot request failed: " ++ e), rfl⟩
      | none =>
        cases sb with
        | none =>
          exact Or.inr ⟨rfl,
            "Screenshot not available. Make sure html2canvas is loaded.", rfl⟩
        | some url =>
          rcases hp : dropPrefixChars pngPrefixChars url.toList with _ | b64
          · refine Or.inr ⟨?_, "Screenshot not available. Make sure html2canvas is loaded.", ?_⟩ <;>
              (simp only [handle_screenshot_eq_some, hp]; rfl)
          · rcases hdec : base64_decode b64 with e | bytes
            · refine Or.inr ⟨?_, ("Base64 decode failed: " ++ e), ?_⟩ <;>
                (simp only [handle_screenshot_eq_some, hp, hdec]; rfl)
            · exact Or.inl (by simp only [handle_screenshot_eq_some, hp, hdec]; rfl)
  · intro p hc
    simp [handle_execute, hc]
  · intro p cmd hc hmw
    simp only at hmw
    subst hmw
    simp [handle_execute, hc]
  · intro p cmd e hc hmw hee
    simp only at hmw hee
    subst hmw hee
    simp [handle_execute, hc]
  · intro hmw
    simp only at hmw
    subst hmw
    rfl
  · intro e hmw hee
    simp only at hmw hee
    subst hmw hee
    rfl

theorem handlers_total_witness :
    (handle_execute ⟨true, none, none⟩ (.payload (.obj [("command", .num 5)]))).1 =
      json_response_with_status (.obj [("error", .str "Missing 'command' field")]) 400 ∧
    (handle_execute ⟨false, none, none⟩ (.payload (.obj [("command", .str "go")]))).1 =
      json_response_with_status (.obj [("error", .str "Main window not found")]) 500 ∧
    (handle_screenshot ⟨true, some "boom", none⟩).1 =
      json_response_with_status
        (.obj [("error", .str ("Screenshot request failed: " ++ "boom"))]) 500 :=
  ⟨(handlers_total ⟨true, none, none⟩ (.payload (.obj [("command", .num 5)]))).2.2.2.2.1
      (.obj [("command", .num 5)]) rfl,
   (handlers_total ⟨false, none, none⟩ (.payload (.obj [("command", .str "go")]))).2.2.2.2.2.1
      (.obj [("command", .str "go")]) "go" rfl rfl,
   (handlers_total ⟨true, some "boom", none⟩ (.payload (.obj []))).2.2.2.2.2.2.2.2
      "boom" rfl rfl⟩
